import Mathlib

/-
Verification of the megabuy-go feed-import pipeline against its
natural-language specification.

The definitions below are a shallow embedding of the Go source:

* internal/handlers/handlers.go : makeSlug
* internal/handlers/feeds.go    : mapFields, runImport, createProductFromFeed,
                                  updateProductFromFeed, parseFullXML,
                                  parseXMLPreview, parseCSVPreview
* unnamed/part_001              : importFeed (EAN-or-SKU lookup),
                                  findOrCreateCategory, the HeurekaProduct
                                  struct-based XML extraction

Go maps with string keys are embedded as association lists with
last-write-wins upsert; Go interface values as the GoVal type; database
rows as lists of records; the database round-trips of one import run as
oracle functions in an environment record.  Go map iteration order is
nondeterministic; the association lists fix one order, which is only
relied upon where the Go result is order-independent.
-/

/-- Scalar value stored in a Go map of type map of string to interface.
JSON and XML feed fields are strings or numbers; the Go nil interface
is a separate value (an absent key and a nil value behave differently
in comparisons against the empty string). -/
inductive GoVal where
  | str (s : String)
  | num (q : Rat)
  | nil
deriving DecidableEq, Repr

/-- One raw or normalized record: a Go map from field name to value,
embedded as an association list. -/
abbrev NRec : Type := List (String × GoVal)

/-- Go map read m[k]: the value when the key is present. -/
def lookupVal (r : NRec) (k : String) : Option GoVal :=
  match r with
  | [] => none
  | (k2, v) :: rest => if k2 = k then some v else lookupVal rest k

/-- Go map write m[k] = v: replace the existing binding or append a new one. -/
def setVal (r : NRec) (k : String) (v : GoVal) : NRec :=
  match r with
  | [] => [(k, v)]
  | (k2, v2) :: rest => if k2 = k then (k, v) :: rest else (k2, v2) :: setVal rest k v

/-- Go type assertion s, ok := v.(string) combined with its use sites:
yields the string when the value is a string, otherwise the empty string. -/
def goStr (v : Option GoVal) : String :=
  match v with
  | some (GoVal.str s) => s
  | _ => ""

/-- Field read used by createProductFromFeed and the EAN/SKU checks:
data[k].(string) with the zero value on failure. -/
def getStr (d : NRec) (k : String) : String :=
  goStr (lookupVal d k)

/- ===== Slug derivation (handlers.go makeSlug) ===== -/

/-- The keep-as-is test of the rune mapper in makeSlug:
c is between a and z (97..122) or between 0 and 9 (48..57). -/
def slugKeep (c : Char) : Bool :=
  (97 ≤ c.toNat && c.toNat ≤ 122) || (48 ≤ c.toNat && c.toNat ≤ 57)

/-- Characters that can appear in a makeSlug output: slugKeep or a hyphen. -/
def charOk (c : Char) : Bool :=
  slugKeep c || c = '-'

/-- ASCII model of strings.ToLower: map A..Z (65..90) to a..z. -/
def toLowerChar (c : Char) : Char :=
  if 65 ≤ c.toNat && c.toNat ≤ 90 then Char.ofNat (c.toNat + 32) else c

/-- Table of precomposed Latin letters with combining marks, as used in
Slovak and Czech feed data, paired with their base letters. -/
def markTable : List (Char × Char) :=
  [('á', 'a'), ('ä', 'a'), ('č', 'c'), ('ď', 'd'), ('é', 'e'), ('í', 'i'),
   ('ĺ', 'l'), ('ľ', 'l'), ('ň', 'n'), ('ó', 'o'), ('ô', 'o'), ('ŕ', 'r'),
   ('š', 's'), ('ť', 't'), ('ú', 'u'), ('ý', 'y'), ('ž', 'z')]

/-- Per-character model of the transform chain norm.NFD, runes.Remove
(runes.In(unicode.Mn)), norm.NFC: canonical decomposition followed by
removal of combining marks, which sends a precomposed letter to its base
letter and is the identity on ASCII.  Modelled here on the markTable
range. -/
def stripMark (c : Char) : Char :=
  match markTable.find? (fun p => p.1 = c) with
  | some p => p.2
  | none => c

/-- The rune function passed to strings.Map in makeSlug: keep lowercase
letters and digits, turn a space or hyphen into a hyphen, drop the rest. -/
def mapRune (c : Char) : Option Char :=
  if slugKeep c then some c
  else if c = ' ' || c = '-' then some '-'
  else none

/-- strings.Map over the rune function (dropped runes leave the string). -/
def mapRunes (l : List Char) : List Char :=
  l.filterMap mapRune

/-- Test for an occurrence of two adjacent hyphens, as in
strings.Contains(result, "--"). -/
def containsDD : List Char → Bool
  | [] => false
  | [_] => false
  | c :: d :: rest => (c = '-' && d = '-') || containsDD (d :: rest)

/-- One strings.ReplaceAll(result, "--", "-") pass: non-overlapping
left-to-right replacement of a hyphen pair by a single hyphen. -/
def replaceDD : List Char → List Char
  | [] => []
  | [c] => [c]
  | c :: d :: rest =>
    if c = '-' && d = '-' then '-' :: replaceDD rest
    else c :: replaceDD (d :: rest)

/-- The makeSlug loop: while the string contains a hyphen pair, replace
pairs by single hyphens.  Each pass strictly shortens the list, so fuel
equal to the initial length is enough to reach the loop exit. -/
def collapseFuel : Nat → List Char → List Char
  | 0, l => l
  | n + 1, l => if containsDD l then collapseFuel n (replaceDD l) else l

/-- The fully fuelled collapse loop of makeSlug. -/
def collapseDashes (l : List Char) : List Char :=
  collapseFuel l.length l

/-- strings.Trim from the left for the hyphen cut set. -/
def trimLeadDash (l : List Char) : List Char :=
  l.dropWhile (fun c => c = '-')

/-- strings.Trim from the right for the hyphen cut set: the longest
hyphen-free suffix is removed; the result is a front portion of the
input. -/
def trimRightDash : List Char → List Char
  | [] => []
  | c :: rest =>
    match trimRightDash rest with
    | [] => if c = '-' then [] else [c]
    | r => c :: r

/-- strings.Trim(result, "-"): cut hyphens from both ends. -/
def trimDash (l : List Char) : List Char :=
  trimRightDash (trimLeadDash l)

/-- Embedding of makeSlug (handlers.go lines 33-43 and its copy in
unnamed/part_001): lowercase, strip combining marks via canonical
decomposition, keep letters and digits while mapping space and hyphen to
hyphen and dropping other runes, collapse hyphen pairs until none
remain, then trim hyphens at both ends. -/
def makeSlug (s : String) : String :=
  let lowered := s.data.map toLowerChar
  let stripped := lowered.map stripMark
  let mapped := mapRunes stripped
  let collapsed := collapseDashes mapped
  String.mk (trimDash collapsed)

/- ===== Generic substring split (strings.Split / strings.Contains) ===== -/

/-- Test whether the first list stands at the front of the second. -/
def leadsWith : List Char → List Char → Bool
  | [], _ => true
  | _ :: _, [] => false
  | a :: as2, b :: bs => a = b && leadsWith as2 bs

/-- strings.Contains: some suffix of the list starts with the pattern. -/
def hasSub : List Char → List Char → Bool
  | [], sub => sub.isEmpty
  | c :: rest, sub => leadsWith sub (c :: rest) || hasSub rest sub

/-- Fuelled worker for strings.Split with a non-empty separator:
left-to-right scan, cutting at each non-overlapping separator
occurrence. -/
def splitSubFuel (sep : List Char) : Nat → List Char → List Char → List (List Char)
  | 0, l, acc => [acc.reverse ++ l]
  | n + 1, l, acc =>
    match l with
    | [] => [acc.reverse]
    | c :: rest =>
      if leadsWith sep l then acc.reverse :: splitSubFuel sep n (l.drop sep.length) []
      else splitSubFuel sep n rest (c :: acc)

/-- strings.Split(s, sep) for a non-empty separator (fuel covers the
whole scan). -/
def goSplit (sep : List Char) (l : List Char) : List (List Char) :=
  splitSubFuel sep (l.length + 1) l []

/-- ASCII whitespace test for the TrimSpace model. -/
def isSpaceCh (c : Char) : Bool :=
  c = ' ' || c = '\t' || c = '\n' || c = '\r'

/-- strings.TrimSpace on the ASCII whitespace set. -/
def trimSpaceStr (s : String) : String :=
  String.mk (((s.data.dropWhile isSpaceCh).reverse.dropWhile isSpaceCh).reverse)

/- ===== Category resolution (unnamed/part_001 findOrCreateCategory) ===== -/

/-- One categories row: generated identifier, optional parent link,
display name and slug. -/
structure Category where
  cid : Nat
  parent : Option Nat
  name : String
  slug : String
deriving DecidableEq, Repr

/-- The lookup SELECT id FROM categories WHERE slug = x AND parent_id =
p (parent IS NULL when p is none). -/
def catLookup (cats : List Category) (slug : String) (parent : Option Nat) : Option Nat :=
  (cats.find? (fun c => c.slug == slug && c.parent == parent)).map (fun c => c.cid)

/-- The segment walk of findOrCreateCategory: look up each non-empty
trimmed segment under the current parent, inserting a fresh row on a
lookup miss; fresh identifiers are the current table size. -/
def fccLoop : List String → Option Nat → Option Nat → List Category → Option Nat × List Category
  | [], _, lastID, cats => (lastID, cats)
  | part :: rest, parentID, lastID, cats =>
    let p := trimSpaceStr part
    if p = "" then fccLoop rest parentID lastID cats
    else
      let slug := makeSlug p
      match catLookup cats slug parentID with
      | some cid => fccLoop rest (some cid) (some cid) cats
      | none =>
        let cid := cats.length
        fccLoop rest (some cid) (some cid)
          (cats ++ [{ cid := cid, parent := parentID, name := p, slug := slug }])

/-- Embedding of findOrCreateCategory (unnamed/part_001 lines
1284-1328): an empty path yields no category; the path is split on the
separator space-pipe-space only, the segments are walked root to leaf
with lookup-or-insert on the pair of slug and parent, and the leaf
identifier is returned.  The Go empty-string sentinel for no category is
modelled as none. -/
def findOrCreateCategory (cats : List Category) (categoryText : String) :
    Option Nat × List Category :=
  if categoryText = "" then (none, cats)
  else
    let parts := (goSplit (" | ".data) categoryText.data).map String.mk
    let parts := if parts.isEmpty then [categoryText] else parts
    fccLoop parts none none cats

/-- Modelled from the spec: the category-path splitter the specification
describes, which checks the delimiters space-pipe-space, pipe,
space-gt-space and gt in that priority order and splits on the first one
found in the path (no delimiter: the whole path is one segment);
segments are trimmed. -/
def specSplitSegs (s : String) : List String :=
  let delims : List (List Char) := [" | ".data, "|".data, " > ".data, ">".data]
  match delims.find? (fun d => hasSub s.data d) with
  | some d => ((goSplit d s.data).map String.mk).map trimSpaceStr
  | none => [trimSpaceStr s]

/- ===== Price coercion (feeds.go createProductFromFeed / updateProductFromFeed) ===== -/

/-- The price switch in createProductFromFeed (feeds.go lines 541-547):
a float64 value is taken directly; the string case is an empty body
whose only content is the comment saying to parse, so every string
leaves the zero value; any other value also leaves zero. -/
def priceMinCreate (v : Option GoVal) : Rat :=
  match v with
  | some (GoVal.num q) => q
  | _ => 0

/-- The price switch in updateProductFromFeed (feeds.go lines 566-570):
only the float64 case exists, so every non-number leaves the zero
value. -/
def priceMinUpdate (v : Option GoVal) : Rat :=
  match v with
  | some (GoVal.num q) => q
  | _ => 0

/-- Decimal digit test for the price parser model. -/
def isDigitCh (c : Char) : Bool :=
  48 ≤ c.toNat && c.toNat ≤ 57

/-- Modelled from the spec: normalization of a string price, replacing
comma decimal separators by dots and stripping every character that is
neither a digit nor a dot. -/
def normalizePriceChars (l : List Char) : List Char :=
  (l.map (fun c => if c = ',' then '.' else c)).filter (fun c => isDigitCh c || c = '.')

/-- Digit-list value in base ten. -/
def digitsVal (l : List Char) : Nat :=
  l.foldl (fun a c => a * 10 + (c.toNat - 48)) 0

/-- Split on dots for the decimal parser model. -/
def splitDot : List Char → List Char → List (List Char)
  | [], acc => [acc.reverse]
  | '.' :: rest, acc => acc.reverse :: splitDot rest []
  | c :: rest, acc => splitDot rest (c :: acc)

/-- Modelled from the spec: strconv.ParseFloat restricted to plain
decimal forms — an optional integer part, an optional dot, an optional
fraction part, with at least one digit overall; anything else (the empty
string, several dots, stray characters) fails. -/
def parseDecimal (l : List Char) : Option Rat :=
  match splitDot l [] with
  | [ip] =>
    if ip.all isDigitCh && !ip.isEmpty then some (mkRat (Int.ofNat (digitsVal ip)) 1) else none
  | [ip, fp] =>
    if (ip.all isDigitCh && fp.all isDigitCh) && !(ip.isEmpty && fp.isEmpty) then
      some (mkRat (Int.ofNat (digitsVal ip * 10 ^ fp.length + digitsVal fp)) (10 ^ fp.length))
    else none
  | _ => none

/-- Modelled from the spec: the price coercion the specification
describes — numbers pass through, strings are normalized and parsed with
zero for unparsable input, and a nil value is zero. -/
def specCoercePrice (v : GoVal) : Rat :=
  match v with
  | GoVal.num q => q
  | GoVal.str s => (parseDecimal (normalizePriceChars s.data)).getD 0
  | GoVal.nil => 0

/- ===== Field mapping (feeds.go mapFields) ===== -/

/-- The autoMap table of mapFields (feeds.go lines 621-630): canonical
field names with their priority lists of common raw names. -/
def autoMapTable : List (String × List String) :=
  [("title", ["PRODUCTNAME", "PRODUCT", "NAME", "NAZOV", "TITLE"]),
   ("description", ["DESCRIPTION", "POPIS", "DESC"]),
   ("price", ["PRICE_VAT", "PRICE", "CENA"]),
   ("ean", ["EAN", "EAN13", "GTIN", "BARCODE"]),
   ("sku", ["SKU", "ITEM_ID", "PRODUCTNO", "KOD"]),
   ("brand", ["MANUFACTURER", "BRAND", "VYROBCE", "ZNACKA"]),
   ("image_url", ["IMGURL", "IMG_URL", "IMAGE", "OBRAZOK"]),
   ("affiliate_url", ["URL", "ITEM_URL", "PRODUCT_URL"])]

/-- The Go test result[target] == nil: true when the key is absent or
holds the nil interface value. -/
def goIsNil (v : Option GoVal) : Bool :=
  match v with
  | none => true
  | some GoVal.nil => true
  | _ => false

/-- The first loop of mapFields (feeds.go lines 613-619): every mapping
entry from source field to target field with a non-empty target name
copies the source value whenever the source key is present — the value
itself is not inspected.  Go iterates the mapping map in arbitrary
order; the entry list fixes one order. -/
def explicitPass (item : NRec) (mapping : List (String × String)) : NRec :=
  mapping.foldl
    (fun acc e =>
      if e.2 ≠ "" then
        match lookupVal item e.1 with
        | some v => setVal acc e.2 v
        | none => acc
      else acc) []

/-- The candidate walk of the automap loop: the first present source
whose value differs from the empty string wins (a nil value also passes
the Go comparison against the empty string). -/
def firstAutoVal (item : NRec) : List String → Option GoVal
  | [] => none
  | s :: rest =>
    match lookupVal item s with
    | some v => if v ≠ GoVal.str "" then some v else firstAutoVal item rest
    | none => firstAutoVal item rest

/-- The second loop of mapFields (feeds.go lines 631-640): for each
canonical field whose current value is nil, take the first usable
candidate value. -/
def autoFill (item : NRec) (acc : NRec) : NRec :=
  autoMapTable.foldl
    (fun acc t =>
      if goIsNil (lookupVal acc t.1) then
        match firstAutoVal item t.2 with
        | some v => setVal acc t.1 v
        | none => acc
      else acc) acc

/-- Embedding of mapFields (feeds.go lines 611-642): the explicit
mapping pass followed by the heuristic automap pass. -/
def mapFields (item : NRec) (mapping : List (String × String)) : NRec :=
  autoFill item (explicitPass item mapping)

/-- Modelled from the spec: the explicit pass as the claim states it —
an entry applies only when its target is one of the canonical fields and
the source value is present and non-empty. -/
def claimExplicitPass (item : NRec) (mapping : List (String × String)) : NRec :=
  mapping.foldl
    (fun acc e =>
      if autoMapTable.any (fun t => t.1 = e.2) then
        match lookupVal item e.1 with
        | some v => if v ≠ GoVal.str "" then setVal acc e.2 v else acc
        | none => acc
      else acc) []

/-- Modelled from the spec: the field mapper as the claim states it,
with the restricted explicit pass followed by the same heuristic
fill. -/
def claimMapFields (item : NRec) (mapping : List (String × String)) : NRec :=
  autoFill item (claimExplicitPass item mapping)

/- ===== Reconciler and import run (feeds.go runImport) ===== -/

/-- One products row restricted to the columns the import pipeline
reads or that witness a write: identifier, the immutable natural keys,
and the mutable title and price_min. -/
structure ProductRow where
  pid : Nat
  ean : String
  sku : String
  title : String
  price : Rat
deriving DecidableEq, Repr

/-- SELECT id FROM products WHERE ean equals the argument (first row). -/
def lookupByEAN (db : List ProductRow) (e : String) : Option Nat :=
  (db.find? (fun r => r.ean == e)).map (fun r => r.pid)

/-- SELECT id FROM products WHERE sku equals the argument (first row). -/
def lookupBySKU (db : List ProductRow) (s : String) : Option Nat :=
  (db.find? (fun r => r.sku == s)).map (fun r => r.pid)

/-- The existing-product search of runImport (feeds.go lines 469-478):
look up by EAN when the mapped ean is a non-empty string, then, only
when that left the identifier empty, look up by SKU when the mapped sku
is a non-empty string.  The Go empty-string sentinel is modelled as
none. -/
def reconcileExisting (db : List ProductRow) (d : NRec) : Option Nat :=
  let e1 := if getStr d "ean" ≠ "" then lookupByEAN db (getStr d "ean") else none
  match e1 with
  | some i => some i
  | none => if getStr d "sku" ≠ "" then lookupBySKU db (getStr d "sku") else none

/-- Modelled from the spec: the ordered matching policy as the claim
states it — exact EAN match when the EAN is non-empty, otherwise exact
SKU match when the SKU is non-empty, otherwise no match. -/
def orderedMatch (db : List ProductRow) (ean sku : String) : Option Nat :=
  if ean ≠ "" ∧ (lookupByEAN db ean).isSome then lookupByEAN db ean
  else if sku ≠ "" ∧ (lookupBySKU db sku).isSome then lookupBySKU db sku
  else none

/-- The single lookup of importFeed (unnamed/part_001 line 1212):
SELECT id FROM products WHERE ean = item.EAN OR sku = item.ItemID — one
disjunctive query with no ordering between the keys and no emptiness
guard; the store may return any matching row, modelled as the first. -/
def heurekaLookup (db : List ProductRow) (ean iid : String) : Option Nat :=
  (db.find? (fun r => r.ean == ean || r.sku == iid)).map (fun r => r.pid)

/-- Import progress state (feeds.go ImportProgress) without the
rolling log. -/
structure Progress where
  status : String
  message : String
  total : Nat
  processed : Nat
  created : Nat
  updated : Nat
  skipped : Nat
  errors : Nat
  percent : Nat
deriving DecidableEq, Repr

/-- The progress entry created by StartImport before the background run
begins. -/
def initProgress : Progress :=
  { status := "downloading", message := "", total := 0, processed := 0, created := 0,
    updated := 0, skipped := 0, errors := 0, percent := 0 }

/-- The updateProgress closure of runImport (feeds.go lines 414-425):
set status and message, and recompute percent when a total is known. -/
def updateProgress (p : Progress) (status message : String) : Progress :=
  let p2 := { p with status := status, message := message }
  if 0 < p2.total then { p2 with percent := p2.processed * 100 / p2.total } else p2

/-- Environment of one import run: the feed field mapping and the
external collaborators — whether the download succeeds, and whether the
INSERT and the UPDATE of the store succeed for the record at each
index. -/
structure Env where
  downloadOk : Bool
  mapping : List (String × String)
  insertOk : Nat → Bool
  updateOk : Nat → Bool

/-- Mutable state of one run: the progress entry, the products table,
and the sequence of status values written to the progress entry. -/
structure RunState where
  prog : Progress
  db : List ProductRow
  trace : List String
deriving Repr

/-- A status write through updateProgress, recorded in the trace. -/
def writeStatus (st : RunState) (status message : String) : RunState :=
  { st with prog := updateProgress st.prog status message, trace := st.trace ++ [status] }

/-- Embedding of createProductFromFeed (feeds.go lines 529-559): on a
successful INSERT a fresh row with the mapped natural keys, title and
coerced price is appended and the new identifier returned; a failed
INSERT returns the empty-identifier sentinel, modelled as none. -/
def createProductFromFeed (ok : Bool) (db : List ProductRow) (d : NRec) :
    Option (List ProductRow) :=
  if ok then
    some (db ++ [{ pid := db.length, ean := getStr d "ean", sku := getStr d "sku",
                   title := getStr d "title", price := priceMinCreate (lookupVal d "price") }])
  else none

/-- Embedding of updateProductFromFeed (feeds.go lines 561-577): a
successful UPDATE overwrites price unconditionally and title only when
the incoming title is non-empty (COALESCE over NULLIF), and never
touches ean or sku; a failed UPDATE changes nothing.  The function has
no return value in the source: the Exec error is discarded inside it,
so the caller cannot observe the failure. -/
def updateProductFromFeed (ok : Bool) (db : List ProductRow) (pid : Nat) (d : NRec) :
    List ProductRow :=
  if ok then
    db.map (fun r =>
      if r.pid = pid then
        { r with
          title := if getStr d "title" ≠ "" then getStr d "title" else r.title,
          price := priceMinUpdate (lookupVal d "price") }
      else r)
  else db

/-- One iteration of the import loop of runImport (feeds.go lines
458-509) for the record at index i: map the fields; skip the record
when the mapped title equals the empty string (skipped and processed
counters only); otherwise update a matched product (counted as updated
whether or not the UPDATE succeeds) or insert a new one (counted as
created on success, as an error on failure); then advance processed and
percent, and re-write the importing status every hundred records. -/
def importStep (env : Env) (total : Nat) (st : RunState) (ir : Nat × NRec) : RunState :=
  let i := ir.1
  let productData := mapFields ir.2 env.mapping
  if lookupVal productData "title" = some (GoVal.str "") then
    { st with prog := { st.prog with
        skipped := st.prog.skipped + 1, processed := st.prog.processed + 1 } }
  else
    let st1 :=
      match reconcileExisting st.db productData with
      | some pid =>
        { st with db := updateProductFromFeed (env.updateOk i) st.db pid productData,
                  prog := { st.prog with updated := st.prog.updated + 1 } }
      | none =>
        match createProductFromFeed (env.insertOk i) st.db productData with
        | some db2 => { st with db := db2, prog := { st.prog with created := st.prog.created + 1 } }
        | none => { st with prog := { st.prog with errors := st.prog.errors + 1 } }
    let st2 := { st1 with prog := { st1.prog with
        processed := st1.prog.processed + 1, percent := (i + 1) * 100 / total } }
    if (i + 1) % 100 = 0 then writeStatus st2 "importing" "progress" else st2

/-- The completion block of runImport (feeds.go lines 512-518): the
terminal status, message and full percent. -/
def completeRun (st : RunState) : RunState :=
  { st with prog := { st.prog with status := "completed", message := "done", percent := 100 },
            trace := st.trace ++ ["completed"] }

/-- Embedding of runImport (feeds.go lines 410-527) from the point
where the progress entry exists: a failed download ends the run with the
failed status; otherwise the parsing status is written, the total is
set from the extracted records, the importing status is written, every
record is routed through the import loop, and the run completes.  The
feeds-table writes and the search-index sync that follow touch no state
modelled here. -/
def runImport (env : Env) (items : List NRec) (db0 : List ProductRow) : RunState :=
  let st0 : RunState := { prog := initProgress, db := db0, trace := [] }
  if env.downloadOk then
    let st1 := writeStatus st0 "parsing" "parsing feed"
    let st2 := { st1 with prog := { st1.prog with total := items.length } }
    let st3 := writeStatus st2 "importing" "importing"
    let st4 := items.enum.foldl (importStep env items.length) st3
    completeRun st4
  else writeStatus st0 "failed" "download failed"

/- ===== XML extraction (feeds.go parseFullXML / parseXMLPreview) ===== -/

/-- Token of the streaming XML decoder, the boundary to encoding/xml:
element start, character data, element end. -/
inductive XMLToken where
  | startEl (name : String)
  | charData (s : String)
  | endEl (name : String)
deriving DecidableEq, Repr

/-- strings.EqualFold on the ASCII range. -/
def eqFold (a b : String) : Bool :=
  a.data.map toLowerChar == b.data.map toLowerChar

/-- Loop state of parseFullXML: inside-item flag, current child element
name, fields of the item being built, and finished items. -/
structure XmlState where
  inItem : Bool
  currentElement : String
  currentItem : NRec
  items : List NRec

/-- One token step of parseFullXML (feeds.go lines 655-685): an item
start opens a fresh field map; any other element start inside an item
becomes the current field; trimmed non-empty character data is stored
under the current field; an item end appends a non-empty item; every
element end clears the current field. -/
def xmlStep (ip : String) (st : XmlState) (tok : XMLToken) : XmlState :=
  match tok with
  | XMLToken.startEl n =>
    if eqFold n ip then { st with inItem := true, currentItem := [] }
    else if st.inItem then { st with currentElement := n }
    else st
  | XMLToken.charData s =>
    if st.inItem ∧ st.currentElement ≠ "" then
      let value := trimSpaceStr s
      if value ≠ "" then
        { st with currentItem := setVal st.currentItem st.currentElement (GoVal.str value) }
      else st
    else st
  | XMLToken.endEl n =>
    let st2 :=
      if eqFold n ip then
        { st with inItem := false,
                  items := if 0 < st.currentItem.length then st.items ++ [st.currentItem]
                           else st.items,
                  currentItem := [] }
      else st
    { st2 with currentElement := "" }

/-- Embedding of parseFullXML (feeds.go lines 644-687) over the decoder
token stream: the default item element name is SHOPITEM. -/
def parseFullXML (tokens : List XMLToken) (itemPath : String) : List NRec :=
  let ip := if itemPath = "" then "SHOPITEM" else itemPath
  (tokens.foldl (xmlStep ip) { inItem := false, currentElement := "", currentItem := [], items := [] }).items

/-- Result of a preview parse: discovered field names, sample records,
and the total-items counter. -/
structure FeedPreviewM where
  fields : List String
  sample : List NRec
  totalItems : Nat
deriving DecidableEq, Repr

/-- Field-name set of the preview (a Go map used as a set; the set is
modelled in insertion order). -/
def addFieldName (fs : List String) (n : String) : List String :=
  if fs.contains n then fs else fs ++ [n]

/-- Loop state of parseXMLPreview. -/
structure XmlPrevState where
  inItem : Bool
  currentElement : String
  currentItem : NRec
  sample : List NRec
  total : Nat
  fieldsMap : List String

/-- The token loop of parseXMLPreview (feeds.go lines 251-289): like
the full parse, but each stored field name is also recorded, each
finished non-empty item is appended to the sample with the total-items
counter, and the function returns as soon as the sample holds five
items, ignoring the rest of the payload. -/
def xmlPreviewLoop (ip : String) : List XMLToken → XmlPrevState → FeedPreviewM
  | [], st => { fields := st.fieldsMap, sample := st.sample, totalItems := st.total }
  | tok :: rest, st =>
    match tok with
    | XMLToken.startEl n =>
      if eqFold n ip then xmlPreviewLoop ip rest { st with inItem := true, currentItem := [] }
      else if st.inItem then xmlPreviewLoop ip rest { st with currentElement := n }
      else xmlPreviewLoop ip rest st
    | XMLToken.charData s =>
      if st.inItem ∧ st.currentElement ≠ "" then
        let value := trimSpaceStr s
        if value ≠ "" then
          xmlPreviewLoop ip rest
            { st with currentItem := setVal st.currentItem st.currentElement (GoVal.str value),
                      fieldsMap := addFieldName st.fieldsMap st.currentElement }
        else xmlPreviewLoop ip rest st
      else xmlPreviewLoop ip rest st
    | XMLToken.endEl n =>
      if eqFold n ip then
        if 0 < st.currentItem.length then
          let sample2 := st.sample ++ [st.currentItem]
          let total2 := st.total + 1
          if 5 ≤ sample2.length then
            { fields := st.fieldsMap, sample := sample2, totalItems := total2 }
          else
            xmlPreviewLoop ip rest
              { st with inItem := false, currentElement := "", currentItem := [],
                        sample := sample2, total := total2 }
        else
          xmlPreviewLoop ip rest
            { st with inItem := false, currentElement := "", currentItem := [] }
      else xmlPreviewLoop ip rest { st with currentElement := "" }

/-- Embedding of parseXMLPreview (feeds.go lines 239-294) over the
decoder token stream. -/
def parseXMLPreview (tokens : List XMLToken) (itemPath : String) : FeedPreviewM :=
  let ip := if itemPath = "" then "SHOPITEM" else itemPath
  xmlPreviewLoop ip tokens
    { inItem := false, currentElement := "", currentItem := [], sample := [], total := 0,
      fieldsMap := [] }

/- ===== Struct-based Heureka extraction (unnamed/part_001) ===== -/

/-- A HeurekaProduct (unnamed/part_001 lines 931-952) restricted to the
fields the import and the claims read: ITEM_ID, PRODUCTNAME, EAN and
the repeated PARAM blocks collected as name-value pairs. -/
structure HItem where
  itemId : String
  productName : String
  ean : String
  params : List (String × String)
deriving DecidableEq, Repr

/-- Loop state of the struct-based extraction. -/
structure HState where
  inItem : Bool
  inParam : Bool
  cur : String
  pname : String
  pval : String
  itemId : String
  productName : String
  ean : String
  params : List (String × String)
  items : List HItem

/-- One token step modelling encoding/xml Unmarshal of a SHOPITEM into
the HeurekaProduct struct, restricted to the HItem fields: string
fields collect the character data of the matching child element, and
each PARAM block contributes one name-value pair built from its
PARAM_NAME and VAL children. -/
def hStep (st : HState) (tok : XMLToken) : HState :=
  match tok with
  | XMLToken.startEl n =>
    if n = "SHOPITEM" then
      { st with inItem := true, inParam := false, cur := "", pname := "", pval := "",
                itemId := "", productName := "", ean := "", params := [] }
    else if st.inItem then
      if n = "PARAM" then { st with inParam := true, pname := "", pval := "", cur := "" }
      else { st with cur := n }
    else st
  | XMLToken.charData s =>
    if st.inParam then
      if st.cur = "PARAM_NAME" then { st with pname := st.pname ++ s }
      else if st.cur = "VAL" then { st with pval := st.pval ++ s }
      else st
    else if st.inItem then
      if st.cur = "ITEM_ID" then { st with itemId := st.itemId ++ s }
      else if st.cur = "PRODUCTNAME" then { st with productName := st.productName ++ s }
      else if st.cur = "EAN" then { st with ean := st.ean ++ s }
      else st
    else st
  | XMLToken.endEl n =>
    if n = "SHOPITEM" then
      { st with inItem := false, cur := "",
                items := st.items ++ [{ itemId := st.itemId, productName := st.productName,
                                        ean := st.ean, params := st.params }] }
    else if n = "PARAM" then
      { st with inParam := false, cur := "", params := st.params ++ [(st.pname, st.pval)] }
    else { st with cur := "" }

/-- The SHOPITEM list produced by xml.Unmarshal into HeurekaFeed
(unnamed/part_001), restricted to the HItem fields. -/
def heurekaItems (tokens : List XMLToken) : List HItem :=
  (tokens.foldl hStep
    { inItem := false, inParam := false, cur := "", pname := "", pval := "", itemId := "",
      productName := "", ean := "", params := [], items := [] }).items

/- ===== CSV preview (feeds.go parseCSVPreview) ===== -/

/-- One decoded CSV data row turned into a record: each value is keyed
by the header name at its position; values beyond the header width are
dropped. -/
def csvRowToItem (header : List String) (row : List String) : NRec :=
  row.enum.foldl
    (fun acc jv =>
      match header[jv.1]? with
      | some h => setVal acc h (GoVal.str jv.2)
      | none => acc) []

/-- The bounded sample loop of parseCSVPreview (feeds.go lines
359-372): read at most five rows, appending each to the sample and
advancing the total-items counter. -/
def csvPreviewLoop (header : List String) : Nat → List (List String) → FeedPreviewM → FeedPreviewM
  | 0, _, acc => acc
  | _ + 1, [], acc => acc
  | n + 1, row :: rest, acc =>
    csvPreviewLoop header n rest
      { acc with sample := acc.sample ++ [csvRowToItem header row],
                 totalItems := acc.totalItems + 1 }

/-- Embedding of parseCSVPreview (feeds.go lines 341-374) over the
decoded rows (the delimiter detection and the lenient csv reader are
the boundary to encoding/csv): an empty input is the failed header
read; otherwise the header supplies the field names and at most five
data rows are sampled. -/
def parseCSVPreview (rows : List (List String)) : FeedPreviewM :=
  match rows with
  | [] => { fields := [], sample := [], totalItems := 0 }
  | header :: rest => csvPreviewLoop header 5 rest { fields := header, sample := [], totalItems := 0 }

/- ===== Helper lemmas: slug characters ===== -/

theorem mapRune_charOk {c c2 : Char} (h : mapRune c = some c2) : charOk c2 = true := by
  unfold mapRune at h
  by_cases h1 : slugKeep c = true
  · rw [if_pos h1] at h
    cases h
    unfold charOk
    simp [h1]
  · rw [if_neg h1] at h
    by_cases h2 : (c = ' ' || c = '-') = true
    · rw [if_pos h2] at h
      cases h
      decide
    · rw [if_neg h2] at h
      cases h

theorem mapRunes_allOk {l : List Char} {c2 : Char} (h : c2 ∈ mapRunes l) : charOk c2 = true := by
  unfold mapRunes at h
  rcases List.mem_filterMap.mp h with ⟨a, _, ha⟩
  exact mapRune_charOk ha

theorem replaceDD_mem {l : List Char} {c : Char} (h : c ∈ replaceDD l) :
    c ∈ l ∨ c = '-' := by
  induction l using replaceDD.induct with
  | case1 => simp [replaceDD] at h
  | case2 a =>
      simp [replaceDD] at h
      simp [h]
  | case3 a b rest hdd ih =>
      rw [replaceDD, if_pos hdd] at h
      rcases List.mem_cons.mp h with h2 | h2
      · right; exact h2
      · rcases ih h2 with h3 | h3
        · left; exact List.mem_cons_of_mem _ (List.mem_cons_of_mem _ h3)
        · right; exact h3
  | case4 a b rest hdd ih =>
      rw [replaceDD, if_neg hdd] at h
      rcases List.mem_cons.mp h with h2 | h2
      · left; simp [h2]
      · rcases ih h2 with h3 | h3
        · left; exact List.mem_cons_of_mem _ h3
        · right; exact h3

theorem replaceDD_len_le (l : List Char) : (replaceDD l).length ≤ l.length := by
  induction l using replaceDD.induct with
  | case1 => simp [replaceDD]
  | case2 c => simp [replaceDD]
  | case3 c d rest hdd ih =>
      simp only [replaceDD, if_pos hdd, List.length_cons]
      omega
  | case4 c d rest hdd ih =>
      simp only [replaceDD, if_neg hdd, List.length_cons] at *
      omega

theorem replaceDD_len_lt (l : List Char) (h : containsDD l = true) :
    (replaceDD l).length < l.length := by
  induction l using replaceDD.induct with
  | case1 => simp [containsDD] at h
  | case2 c => simp [containsDD] at h
  | case3 c d rest hdd ih =>
      have hle := replaceDD_len_le rest
      simp only [replaceDD, if_pos hdd, List.length_cons]
      omega
  | case4 c d rest hdd ih =>
      simp only [containsDD] at h
      rw [Bool.eq_false_iff.mpr hdd] at h
      simp only [Bool.false_or] at h
      have hlt := ih h
      simp only [replaceDD, if_neg hdd, List.length_cons] at *
      omega

theorem collapseFuel_mem {n : Nat} {l : List Char} {c : Char}
    (h : c ∈ collapseFuel n l) : c ∈ l ∨ c = '-' := by
  induction n generalizing l with
  | zero => exact Or.inl h
  | succ n ih =>
      unfold collapseFuel at h
      by_cases hc : containsDD l = true
      · rw [if_pos hc] at h
        rcases ih h with h2 | h2
        · exact replaceDD_mem h2
        · exact Or.inr h2
      · rw [if_neg hc] at h
        exact Or.inl h

theorem collapseFuel_noDD (n : Nat) (l : List Char) (hn : l.length ≤ n) :
    containsDD (collapseFuel n l) = false := by
  induction n generalizing l with
  | zero =>
      have : l = [] := List.length_eq_zero.mp (Nat.le_zero.mp hn)
      subst this
      decide
  | succ n ih =>
      unfold collapseFuel
      by_cases hc : containsDD l = true
      · rw [if_pos hc]
        exact ih (replaceDD l) (by have := replaceDD_len_lt l hc; omega)
      · rw [if_neg hc]
        exact Bool.eq_false_iff.mpr hc

theorem collapseDashes_noDD (l : List Char) : containsDD (collapseDashes l) = false :=
  collapseFuel_noDD l.length l (Nat.le_refl _)

theorem collapseFuel_id {l : List Char} (n : Nat) (h : containsDD l = false) :
    collapseFuel n l = l := by
  cases n with
  | zero => rfl
  | succ n =>
      unfold collapseFuel
      rw [if_neg (by simp [h])]

theorem containsDD_cons {xs : List Char} (c : Char) (h : containsDD xs = true) :
    containsDD (c :: xs) = true := by
  cases xs with
  | nil => simp [containsDD] at h
  | cons d rest =>
      unfold containsDD
      simp [h]

theorem containsDD_append_right {b : List Char} (a : List Char) (h : containsDD b = true) :
    containsDD (a ++ b) = true := by
  induction a with
  | nil => simpa using h
  | cons c a ih => exact containsDD_cons c ih

theorem containsDD_append_left {a : List Char} (b : List Char) (h : containsDD a = true) :
    containsDD (a ++ b) = true := by
  induction a with
  | nil => simp [containsDD] at h
  | cons c a ih =>
      cases a with
      | nil => simp [containsDD] at h
      | cons d rest =>
          unfold containsDD at h ⊢
          rw [Bool.or_eq_true] at h
          rcases h with h2 | h2
          · simp [h2]
          · have := ih h2
            simp only [List.cons_append] at this ⊢
            simp [this]

theorem containsDD_dropWhile {p : Char → Bool} {l : List Char}
    (h : containsDD (l.dropWhile p) = true) : containsDD l = true := by
  have hsplit : l.takeWhile p ++ l.dropWhile p = l := List.takeWhile_append_dropWhile p l
  calc containsDD l = containsDD (l.takeWhile p ++ l.dropWhile p) := by rw [hsplit]
    _ = true := containsDD_append_right _ h

theorem trimRightDash_isFront (l : List Char) : ∃ t, l = trimRightDash l ++ t := by
  induction l with
  | nil => exact ⟨[], rfl⟩
  | cons c rest ih =>
      rcases ih with ⟨t, ht⟩
      unfold trimRightDash
      cases hr : trimRightDash rest with
      | nil =>
          by_cases hc : c = '-'
          · rw [if_pos hc]
            rw [hr] at ht
            exact ⟨c :: t, by simp [ht]⟩
          · rw [if_neg hc]
            rw [hr] at ht
            exact ⟨t, by simp [ht]⟩
      | cons r0 r1 =>
          rw [hr] at ht
          exact ⟨t, by simp [ht]⟩

theorem containsDD_trimRightDash {l : List Char}
    (h : containsDD (trimRightDash l) = true) : containsDD l = true := by
  rcases trimRightDash_isFront l with ⟨t, ht⟩
  rw [ht]
  exact containsDD_append_left t h

theorem trimDash_noDD {l : List Char} (h : containsDD l = false) :
    containsDD (trimDash l) = false := by
  by_contra hcon
  have h1 : containsDD (trimDash l) = true := by
    cases h2 : containsDD (trimDash l)
    · exact absurd h2 hcon
    · rfl
  unfold trimDash trimLeadDash at h1
  have h2 := containsDD_trimRightDash h1
  have h3 := containsDD_dropWhile h2
  rw [h] at h3
  cases h3

theorem trimDash_mem {l : List Char} {c : Char} (h : c ∈ trimDash l) : c ∈ l := by
  unfold trimDash at h
  rcases trimRightDash_isFront (trimLeadDash l) with ⟨t, ht⟩
  have h2 : c ∈ trimLeadDash l := by
    rw [ht]
    exact List.mem_append_left t h
  unfold trimLeadDash at h2
  have h3 := List.takeWhile_append_dropWhile (fun c => c = '-') l
  rw [← h3]
  exact List.mem_append_right _ h2

theorem head_dropWhile_dash {l : List Char} {c : Char}
    (h : (l.dropWhile (fun c => c = '-')).head? = some c) : (c = '-') = False := by
  induction l with
  | nil => simp [List.dropWhile] at h
  | cons a rest ih =>
      rw [List.dropWhile_cons] at h
      by_cases ha : (a = '-')
      · rw [if_pos (by simp [ha])] at h
        exact ih h
      · rw [if_neg (by simp [ha])] at h
        simp at h
        subst h
        simp [ha]

theorem head_trimRightDash {l : List Char} {c : Char}
    (h : (trimRightDash l).head? = some c) : l.head? = some c := by
  rcases trimRightDash_isFront l with ⟨t, ht⟩
  rw [ht]
  cases hr : trimRightDash l with
  | nil => rw [hr] at h; simp at h
  | cons r0 r1 =>
      rw [hr] at h
      simp at h
      simp [h]

theorem getLast_trimRightDash (l : List Char) :
    (trimRightDash l).getLast? ≠ some '-' := by
  induction l with
  | nil => simp [trimRightDash]
  | cons c rest ih =>
      unfold trimRightDash
      cases hr : trimRightDash rest with
      | nil =>
          by_cases hc : c = '-'
          · rw [if_pos hc]
            simp
          · rw [if_neg hc]
            simp [hc]
      | cons r0 r1 =>
          rw [hr] at ih
          rw [List.getLast?_cons_cons]
          exact ih

theorem toLowerChar_ok {c : Char} (h : charOk c = true) : toLowerChar c = c := by
  unfold charOk slugKeep at h
  unfold toLowerChar
  rw [Bool.or_eq_true] at h
  rcases h with h1 | h1
  · rw [Bool.or_eq_true] at h1
    rcases h1 with h2 | h2
    · rw [if_neg (by simp at h2 ⊢; omega)]
    · rw [if_neg (by simp at h2 ⊢; omega)]
  · have : c = '-' := by simpa using h1
    subst this
    decide

theorem charOk_toNat_le {c : Char} (h : charOk c = true) : c.toNat ≤ 122 := by
  unfold charOk slugKeep at h
  rw [Bool.or_eq_true] at h
  rcases h with h1 | h1
  · rw [Bool.or_eq_true] at h1
    rcases h1 with h2 | h2 <;> (simp at h2; omega)
  · have : c = '-' := by simpa using h1
    subst this
    decide

theorem stripMark_ok {c : Char} (h : charOk c = true) : stripMark c = c := by
  have hle := charOk_toNat_le h
  unfold stripMark
  rw [List.find?_eq_none.mpr]
  intro p hp
  fin_cases hp <;>
    (simp only [decide_eq_true_eq]
     intro heq
     rw [← heq] at hle
     revert hle
     decide)

theorem mapIdOn {f : Char → Char} {l : List Char} (h : ∀ c ∈ l, f c = c) : l.map f = l := by
  induction l with
  | nil => rfl
  | cons c rest ih =>
      simp only [List.map_cons]
      rw [h c (List.mem_cons_self c rest), ih (fun d hd => h d (List.mem_cons_of_mem c hd))]

theorem mapRune_id {c : Char} (h : charOk c = true) : mapRune c = some c := by
  unfold charOk at h
  unfold mapRune
  rw [Bool.or_eq_true] at h
  rcases h with h1 | h1
  · rw [if_pos h1]
  · have hc : c = '-' := by simpa using h1
    subst hc
    decide

theorem filterMapIdOn {f : Char → Option Char} {l : List Char}
    (h : ∀ c ∈ l, f c = some c) : l.filterMap f = l := by
  induction l with
  | nil => rfl
  | cons c rest ih =>
      rw [List.filterMap_cons, h c (List.mem_cons_self c rest),
        ih (fun d hd => h d (List.mem_cons_of_mem c hd))]

theorem dropWhile_dash_id {l : List Char} (h : ∀ c, l.head? = some c → (c = '-') = False) :
    l.dropWhile (fun c => c = '-') = l := by
  cases l with
  | nil => rfl
  | cons c rest =>
      rw [List.dropWhile_cons, if_neg]
      have := h c (by simp)
      simp [this]

theorem trimRightDash_id {l : List Char} (h : l.getLast? ≠ some '-') :
    trimRightDash l = l := by
  induction l with
  | nil => rfl
  | cons c rest ih =>
      unfold trimRightDash
      cases rest with
      | nil =>
          simp only [trimRightDash]
          have hc : ¬(c = '-') := by
            intro hq
            subst hq
            simp at h
          rw [if_neg hc]
      | cons d r2 =>
          rw [List.getLast?_cons_cons] at h
          rw [ih h]

/- ===== Helper lemmas: collapse output characters ===== -/

theorem collapseDashes_mem {l : List Char} {c : Char}
    (h : c ∈ collapseDashes l) : c ∈ l ∨ c = '-' :=
  collapseFuel_mem h

theorem slugOut_allOk {s : String} {c : Char} (h : c ∈ (makeSlug s).data) :
    charOk c = true := by
  unfold makeSlug at h
  simp only [String.data] at h
  have h1 := trimDash_mem h
  rcases collapseDashes_mem h1 with h2 | h2
  · exact mapRunes_allOk h2
  · subst h2
    decide

/- ===== Helper lemmas: field mapper ===== -/

theorem lookupVal_setVal_ne {r : NRec} {k t : String} {v : GoVal} (h : k ≠ t) :
    lookupVal (setVal r k v) t = lookupVal r t := by
  induction r with
  | nil => simp [setVal, lookupVal, h]
  | cons p rest ih =>
      unfold setVal
      by_cases hk : p.1 = k
      · rw [if_pos hk]
        unfold lookupVal
        rw [if_neg h, if_neg (by rw [hk]; exact h)]
      · rw [if_neg hk]
        unfold lookupVal
        by_cases ht : p.1 = t
        · rw [if_pos ht, if_pos ht]
        · rw [if_neg ht, if_neg ht]
          exact ih

theorem autoFold_preserve (tbl : List (String × List String)) (item : NRec) :
    ∀ (acc : NRec) (t : String) (v : GoVal), lookupVal acc t = some v → v ≠ GoVal.nil →
      lookupVal
        (tbl.foldl
          (fun acc t2 =>
            if goIsNil (lookupVal acc t2.1) then
              match firstAutoVal item t2.2 with
              | some w => setVal acc t2.1 w
              | none => acc
            else acc) acc) t = some v := by
  induction tbl with
  | nil => intro acc t v h _; exact h
  | cons t2 tbl ih =>
      intro acc t v h hv
      rw [List.foldl_cons]
      by_cases hfill : goIsNil (lookupVal acc t2.1) = true
      · rw [if_pos hfill]
        cases hf : firstAutoVal item t2.2 with
        | none => exact ih acc t v h hv
        | some w =>
            by_cases heq : t2.1 = t
            · rw [heq] at hfill
              rw [h] at hfill
              unfold goIsNil at hfill
              cases v with
              | str s => cases hfill
              | num q => cases hfill
              | nil => exact absurd rfl hv
            · exact ih _ t v (by rw [lookupVal_setVal_ne heq]; exact h) hv
      · rw [if_neg hfill]
        exact ih acc t v h hv

theorem autoFill_preserve {item acc : NRec} {t : String} {v : GoVal}
    (h : lookupVal acc t = some v) (hv : v ≠ GoVal.nil) :
    lookupVal (autoFill item acc) t = some v :=
  autoFold_preserve autoMapTable item acc t v h hv

theorem mapFields_explicit_wins {item : NRec} {mapping : List (String × String)}
    {t : String} {v : GoVal} (h : lookupVal (explicitPass item mapping) t = some v)
    (hv : v ≠ GoVal.nil) : lookupVal (mapFields item mapping) t = some v :=
  autoFill_preserve h hv

/- ===== Helper lemmas: import run counters ===== -/

theorem writeStatus_prog (st : RunState) (a b : String) :
    (writeStatus st a b).prog.processed = st.prog.processed ∧
    (writeStatus st a b).prog.errors = st.prog.errors ∧
    (writeStatus st a b).prog.created = st.prog.created ∧
    (writeStatus st a b).prog.updated = st.prog.updated ∧
    (writeStatus st a b).prog.skipped = st.prog.skipped := by
  refine ⟨?_, ?_, ?_, ?_, ?_⟩ <;>
    (unfold writeStatus updateProgress
     dsimp only
     split <;> rfl)

theorem importStep_processed (env : Env) (total : Nat) (st : RunState) (ir : Nat × NRec) :
    (importStep env total st ir).prog.processed = st.prog.processed + 1 := by
  unfold importStep
  dsimp only
  split
  · rfl
  · cases hr : reconcileExisting st.db (mapFields ir.2 env.mapping) with
    | some pid =>
        simp only [hr]
        split
        · exact (writeStatus_prog _ _ _).1
        · rfl
    | none =>
        simp only [hr]
        cases hc : createProductFromFeed (env.insertOk ir.1) st.db (mapFields ir.2 env.mapping) with
        | some db2 =>
            simp only [hc]
            split
            · exact (writeStatus_prog _ _ _).1
            · rfl
        | none =>
            simp only [hc]
            split
            · exact (writeStatus_prog _ _ _).1
            · rfl

theorem foldl_importStep_processed (env : Env) (total : Nat) :
    ∀ (l : List (Nat × NRec)) (st : RunState),
      ((l.foldl (importStep env total) st).prog.processed) = st.prog.processed + l.length := by
  intro l
  induction l with
  | nil => intro st; simp
  | cons ir rest ih =>
      intro st
      rw [List.foldl_cons, ih, importStep_processed]
      simp only [List.length_cons]
      omega

theorem runImport_terminal (env : Env) (items : List NRec) (db0 : List ProductRow)
    (h : env.downloadOk = true) :
    (runImport env items db0).prog.status = "completed" ∧
    (runImport env items db0).prog.processed = items.length := by
  unfold runImport
  rw [if_pos h]
  refine ⟨rfl, ?_⟩
  show (List.foldl (importStep env items.length) _ items.enum).prog.processed = items.length
  rw [foldl_importStep_processed]
  have h2 : ∀ st : RunState, (writeStatus st "importing" "importing").prog.processed
      = st.prog.processed := fun st => (writeStatus_prog st _ _).1
  rw [h2]
  show (writeStatus _ "parsing" "parsing feed").prog.processed + items.enum.length = items.length
  rw [(writeStatus_prog _ _ _).1]
  show 0 + items.enum.length = items.length
  rw [List.enum_length]
  omega

/- ===== Helper lemmas: preview bounds ===== -/

theorem xmlPreviewLoop_bound (ip : String) :
    ∀ (tokens : List XMLToken) (st : XmlPrevState),
      st.total = st.sample.length → st.sample.length < 5 →
      (xmlPreviewLoop ip tokens st).totalItems = (xmlPreviewLoop ip tokens st).sample.length ∧
      (xmlPreviewLoop ip tokens st).sample.length ≤ 5 := by
  intro tokens
  induction tokens with
  | nil =>
      intro st h1 h2
      exact ⟨h1, Nat.le_of_lt h2⟩
  | cons tok rest ih =>
      intro st h1 h2
      cases tok with
      | startEl n =>
          simp only [xmlPreviewLoop]
          split
          · exact ih _ h1 h2
          · split
            · exact ih _ h1 h2
            · exact ih _ h1 h2
      | charData s =>
          simp only [xmlPreviewLoop]
          split
          · split
            · exact ih _ h1 h2
            · exact ih _ h1 h2
          · exact ih _ h1 h2
      | endEl n =>
          simp only [xmlPreviewLoop]
          split
          · split
            · split
              · refine ⟨?_, ?_⟩
                · show st.total + 1 = (st.sample ++ [st.currentItem]).length
                  simp [h1]
                · show (st.sample ++ [st.currentItem]).length ≤ 5
                  simp
                  omega
              · refine ih _ ?_ ?_
                · show st.total + 1 = (st.sample ++ [st.currentItem]).length
                  simp [h1]
                · next hlt =>
                    show (st.sample ++ [st.currentItem]).length < 5
                    omega
            · exact ih _ h1 h2
          · exact ih _ h1 h2

theorem parseXMLPreview_bound (tokens : List XMLToken) (itemPath : String) :
    (parseXMLPreview tokens itemPath).totalItems = (parseXMLPreview tokens itemPath).sample.length ∧
    (parseXMLPreview tokens itemPath).sample.length ≤ 5 := by
  unfold parseXMLPreview
  exact xmlPreviewLoop_bound _ tokens _ rfl (by decide)

theorem csvPreviewLoop_bound (header : List String) :
    ∀ (n : Nat) (rows : List (List String)) (acc : FeedPreviewM),
      acc.totalItems = acc.sample.length → acc.sample.length + n ≤ 5 →
      (csvPreviewLoop header n rows acc).totalItems
          = (csvPreviewLoop header n rows acc).sample.length ∧
      (csvPreviewLoop header n rows acc).sample.length ≤ 5 := by
  intro n
  induction n with
  | zero =>
      intro rows acc h1 h2
      simp only [csvPreviewLoop]
      exact ⟨h1, by omega⟩
  | succ n ih =>
      intro rows acc h1 h2
      cases rows with
      | nil =>
          simp only [csvPreviewLoop]
          exact ⟨h1, by omega⟩
      | cons row rest =>
          simp only [csvPreviewLoop]
          refine ih rest _ ?_ ?_
          · show acc.totalItems + 1 = (acc.sample ++ [csvRowToItem header row]).length
            simp [h1]
          · show (acc.sample ++ [csvRowToItem header row]).length + n ≤ 5
            simp
            omega

theorem parseCSVPreview_bound (rows : List (List String)) :
    (parseCSVPreview rows).totalItems = (parseCSVPreview rows).sample.length ∧
    (parseCSVPreview rows).sample.length ≤ 5 := by
  unfold parseCSVPreview
  cases rows with
  | nil => exact ⟨rfl, by decide⟩
  | cons header rest =>
      exact csvPreviewLoop_bound header 5 rest _ rfl (by simp)

/- ===== Fixed-point lemma for makeSlug ===== -/

theorem makeSlug_fixed (s : String) (hok : ∀ c ∈ s.data, charOk c = true)
    (hdd : containsDD s.data = false)
    (hhd : ∀ c, s.data.head? = some c → (c = '-') = False)
    (hlast : s.data.getLast? ≠ some '-') : makeSlug s = s := by
  unfold makeSlug
  dsimp only
  rw [mapIdOn (fun c hc => toLowerChar_ok (hok c hc))]
  rw [mapIdOn (fun c hc => stripMark_ok (hok c hc))]
  rw [show mapRunes s.data = s.data from filterMapIdOn (fun c hc => mapRune_id (hok c hc))]
  rw [show collapseDashes s.data = s.data from collapseFuel_id _ hdd]
  unfold trimDash trimLeadDash
  rw [dropWhile_dash_id hhd]
  rw [trimRightDash_id hlast]

/- ===== Shared concrete scenarios ===== -/

/-- Run environment in which every external call succeeds and the feed
has no explicit field mapping. -/
def envAllOk : Env :=
  { downloadOk := true, mapping := [], insertOk := fun _ => true, updateOk := fun _ => true }

/-- Run environment in which the INSERT for the record at index one
(record number two) fails and everything else succeeds. -/
def envInsFail1 : Env :=
  { downloadOk := true, mapping := [], insertOk := fun i => i != 1, updateOk := fun _ => true }

/-- Run environment in which every UPDATE fails and everything else
succeeds. -/
def envUpdFail : Env :=
  { downloadOk := true, mapping := [], insertOk := fun _ => true, updateOk := fun _ => false }

/-- Run environment whose feed maps the raw NAZOV field onto the
canonical title. -/
def envNazovTitle : Env :=
  { downloadOk := true, mapping := [("NAZOV", "title")], insertOk := fun _ => true,
    updateOk := fun _ => true }

/-- A raw record with the given title and EAN, as the XML extractor
produces it. -/
def feedRec (title ean : String) : NRec :=
  [("PRODUCTNAME", GoVal.str title), ("EAN", GoVal.str ean)]

/-- Five-record stream with distinct EANs for the partial-failure
scenario. -/
def items5 : List NRec :=
  [feedRec "P1" "E1", feedRec "P2" "E2", feedRec "P3" "E3", feedRec "P4" "E4", feedRec "P5" "E5"]

/-- A record with a valid title and a price of zero. -/
def priceZeroRec : NRec :=
  [("PRODUCTNAME", GoVal.str "T"), ("PRICE", GoVal.num 0)]

/-- A one-product catalog whose product carries EAN E1. -/
def dbOne : List ProductRow :=
  [{ pid := 0, ean := "E1", sku := "", title := "Old", price := 10 }]

/-- An update for the product with EAN E1. -/
def updRec : NRec :=
  [("PRODUCTNAME", GoVal.str "New"), ("EAN", GoVal.str "E1")]

/-- A one-product catalog whose product has EAN X and an empty SKU. -/
def dbEmptySku : List ProductRow :=
  [{ pid := 0, ean := "X", sku := "", title := "Old", price := 0 }]

/-- A record carrying both an explicitly mapped NAZOV and a heuristic
PRODUCTNAME candidate. -/
def recFooBar : NRec :=
  [("NAZOV", GoVal.str "Foo"), ("PRODUCTNAME", GoVal.str "Bar")]

/-- The same record with an empty explicit source value. -/
def recEmptyBar : NRec :=
  [("NAZOV", GoVal.str ""), ("PRODUCTNAME", GoVal.str "Bar")]

/-- The explicit mapping of the precedence example. -/
def mapNazovTitle : List (String × String) := [("NAZOV", "title")]

/-- The three-level category path of the resolution example. -/
def catPath3 : String := "Electronics | Phones | Smartphones"

/-- The category chain the three-level path resolves to. -/
def catChain3 : List Category :=
  [{ cid := 0, parent := none, name := "Electronics", slug := "electronics" },
   { cid := 1, parent := some 0, name := "Phones", slug := "phones" },
   { cid := 2, parent := some 1, name := "Smartphones", slug := "smartphones" }]

/-- Token run of one PARAM block with a PARAM_NAME and a VAL child. -/
def paramToks (p : String × String) : List XMLToken :=
  [XMLToken.startEl "PARAM", XMLToken.startEl "PARAM_NAME", XMLToken.charData p.1,
   XMLToken.endEl "PARAM_NAME", XMLToken.startEl "VAL", XMLToken.charData p.2,
   XMLToken.endEl "VAL", XMLToken.endEl "PARAM"]

/-- Token run of one SHOPITEM with a PRODUCTNAME, an EAN and the given
PARAM blocks. -/
def shopItemToks (pn e : String) (ps : List (String × String)) : List XMLToken :=
  [XMLToken.startEl "SHOPITEM", XMLToken.startEl "PRODUCTNAME", XMLToken.charData pn,
   XMLToken.endEl "PRODUCTNAME", XMLToken.startEl "EAN", XMLToken.charData e,
   XMLToken.endEl "EAN"] ++ (ps.map paramToks).flatten ++ [XMLToken.endEl "SHOPITEM"]

/-- Synthetic payload of three SHOPITEM elements, each with a
PRODUCTNAME, an EAN and two PARAM blocks. -/
def xmlPayload3 : List XMLToken :=
  [XMLToken.startEl "SHOP"]
  ++ shopItemToks "Phone A" "111" [("Color", "Red"), ("Size", "XL")]
  ++ shopItemToks "Phone B" "222" [("Color", "Blue"), ("Size", "M")]
  ++ shopItemToks "Phone C" "333" [("Color", "Green"), ("Size", "S")]
  ++ [XMLToken.endEl "SHOP"]

/-- Token run of one SHOPITEM carrying only a PRODUCTNAME. -/
def smallItemToks (pn : String) : List XMLToken :=
  [XMLToken.startEl "SHOPITEM", XMLToken.startEl "PRODUCTNAME", XMLToken.charData pn,
   XMLToken.endEl "PRODUCTNAME", XMLToken.endEl "SHOPITEM"]

/-- Synthetic payload of six SHOPITEM elements. -/
def xmlPayload6 : List XMLToken :=
  (["A", "B", "C", "D", "E", "F"].map smallItemToks).flatten

/- ===== Claim theorems ===== -/

/-- C1 (amended): in the runImport reconciler of feeds.go the
create-versus-update decision follows the ordered matching policy: the
existing-product search equals the spec's ordered match — exact EAN
match when the EAN is non-empty, SKU consulted only when the EAN lookup
did not match and the SKU is non-empty, otherwise no match (create).
The importFeed variant of unnamed/part_001 does not follow this policy
(see the counterexample). -/
theorem C1_ordered_matching (db : List ProductRow) (d : NRec) :
    reconcileExisting db d = orderedMatch db (getStr d "ean") (getStr d "sku") := by
  unfold reconcileExisting orderedMatch
  dsimp only
  by_cases he : getStr d "ean" = "" <;> by_cases hs : getStr d "sku" = "" <;>
    cases hq : lookupByEAN db (getStr d "ean") <;>
      cases hq2 : lookupBySKU db (getStr d "sku") <;>
        simp [he, hs, hq, hq2]

/-- C1 counterexample: the importFeed lookup of unnamed/part_001 is a
single EAN-or-SKU disjunction, so a record whose EAN is the non-empty
E1 and whose ItemID is empty matches a product with a different EAN and
an empty SKU — it is updated, while the ordered policy of the claim
creates. -/
theorem C1_ordered_matching_counterexample :
    heurekaLookup dbEmptySku "E1" "" = some 0 ∧
    orderedMatch dbEmptySku "E1" "" = none := by decide

/-- C2 (amended): a record whose mapped title is the empty string is
rejected before any persistence call: the skipped and processed counters
advance by one and nothing else changes — in particular the product
table is untouched.  Records with a non-positive price, or with no
title value at all, are not rejected (see the counterexample). -/
theorem C2_empty_title_skip (env : Env) (total : Nat) (st : RunState) (i : Nat) (item : NRec)
    (h : lookupVal (mapFields item env.mapping) "title" = some (GoVal.str "")) :
    importStep env total st (i, item) =
      { st with prog := { st.prog with
          skipped := st.prog.skipped + 1, processed := st.prog.processed + 1 } } := by
  unfold importStep
  dsimp only
  rw [if_pos h]

/-- C2 witness: a record whose explicitly mapped title is empty is
skipped in one concrete step. -/
theorem C2_empty_title_skip_witness :
    importStep envNazovTitle 1 ({ prog := initProgress, db := [], trace := [] } : RunState)
        (0, [("NAZOV", GoVal.str "")]) =
      ({ prog := { initProgress with
           skipped := initProgress.skipped + 1, processed := initProgress.processed + 1 },
         db := [], trace := [] } : RunState) :=
  C2_empty_title_skip envNazovTitle 1 ({ prog := initProgress, db := [], trace := [] } : RunState)
    0 [("NAZOV", GoVal.str "")] (by decide)

/-- C2 counterexample: a record with a valid title and a price of zero
is not rejected — the run persists it as a created product and the
skipped counter stays at zero, although the claim requires a skip for
every non-positive price. -/
theorem C2_empty_title_skip_counterexample :
    lookupVal (mapFields priceZeroRec []) "price" = some (GoVal.num 0) ∧
    (runImport envAllOk [priceZeroRec] []).prog.skipped = 0 ∧
    (runImport envAllOk [priceZeroRec] []).prog.created = 1 ∧
    (runImport envAllOk [priceZeroRec] []).db.length = 1 := by decide

/-- C3: the string branch of the price coercion in createProductFromFeed
is an empty stub (its comment announces parsing that is absent) and
updateProductFromFeed has no string branch at all, so the string
1 234,50 € coerces to zero in both, while the coercion the specification
describes yields 1234.50; the empty string coerces to zero as the
specification says. -/
theorem C3_price_coercion_stub :
    priceMinCreate (some (GoVal.str "1 234,50 €")) = 0 ∧
    priceMinUpdate (some (GoVal.str "1 234,50 €")) = 0 ∧
    specCoercePrice (GoVal.str "1 234,50 €") = mkRat 2469 2 ∧
    specCoercePrice (GoVal.str "") = 0 := by decide

/-- C4 (amended): a run whose extractor returns zero records does not
fail: it writes the parsing and importing statuses, records a total of
zero, and terminates in the completed status.  The failed status is
reached only on a download error. -/
theorem C4_zero_records_completes (env : Env) (db0 : List ProductRow)
    (h : env.downloadOk = true) :
    (runImport env [] db0).prog.status = "completed" ∧
    (runImport env [] db0).trace = ["parsing", "importing", "completed"] ∧
    (runImport env [] db0).prog.total = 0 := by
  unfold runImport
  rw [if_pos h]
  exact ⟨rfl, rfl, rfl⟩

/-- C4 witness: a concrete zero-record run completes. -/
theorem C4_zero_records_completes_witness :
    (runImport envAllOk [] []).prog.status = "completed" ∧
    (runImport envAllOk [] []).trace = ["parsing", "importing", "completed"] ∧
    (runImport envAllOk [] []).prog.total = 0 :=
  C4_zero_records_completes envAllOk [] rfl

/-- C4 counterexample: the concrete zero-record run never reaches the
failed status the claim requires — its status transitions are parsing,
importing, completed. -/
theorem C4_zero_records_counterexample :
    (runImport envAllOk [] []).prog.status ≠ "failed" ∧
    ¬ "failed" ∈ (runImport envAllOk [] []).trace := by decide

/-- C5 (amended): no record ever aborts the run — every run with a
successful download terminates in the completed status with every
record processed; and in the concrete five-record stream whose second
INSERT fails, the run ends with five processed, one error, four created
and the completed status.  A failing UPDATE, however, is counted as
updated, not as an error (see the counterexample). -/
theorem C5_partial_failure_containment :
    (∀ (items : List NRec) (env : Env) (db0 : List ProductRow), env.downloadOk = true →
      (runImport env items db0).prog.status = "completed" ∧
      (runImport env items db0).prog.processed = items.length) ∧
    ((runImport envInsFail1 items5 []).prog.processed = 5 ∧
     (runImport envInsFail1 items5 []).prog.errors = 1 ∧
     (runImport envInsFail1 items5 []).prog.created = 4 ∧
     (runImport envInsFail1 items5 []).prog.status = "completed") :=
  ⟨fun items env db0 h => runImport_terminal env items db0 h, by decide⟩

/-- C5 witness: the containment conjunct instantiated at the concrete
five-record stream. -/
theorem C5_partial_failure_containment_witness :
    (runImport envInsFail1 items5 []).prog.status = "completed" ∧
    (runImport envInsFail1 items5 []).prog.processed = items5.length :=
  C5_partial_failure_containment.1 items5 envInsFail1 [] rfl

/-- C5 counterexample: a record whose UPDATE fails does not increment
the error counter — the run counts it as updated, leaves the stored row
unchanged, and completes with zero errors, although the claim requires
exactly one error for every failing insert or update. -/
theorem C5_partial_failure_counterexample :
    (runImport envUpdFail [updRec] dbOne).prog.errors = 0 ∧
    (runImport envUpdFail [updRec] dbOne).prog.updated = 1 ∧
    (runImport envUpdFail [updRec] dbOne).db = dbOne ∧
    (runImport envUpdFail [updRec] dbOne).prog.status = "completed" := by decide

/-- C6 (amended): an explicit mapping entry always wins over the
heuristic — whenever the explicit pass bound a non-nil value to a
field, the field mapper returns exactly that value; with the mapping
from NAZOV to title and a record holding NAZOV Foo and PRODUCTNAME Bar,
the normalized title is Foo.  The explicit pass, however, applies
whenever the source key is present, even for an empty value and for a
non-canonical target (see the counterexample). -/
theorem C6_explicit_mapping_wins :
    (∀ (item : NRec) (mapping : List (String × String)) (t : String) (v : GoVal),
      lookupVal (explicitPass item mapping) t = some v → v ≠ GoVal.nil →
      lookupVal (mapFields item mapping) t = some v) ∧
    lookupVal (mapFields recFooBar mapNazovTitle) "title" = some (GoVal.str "Foo") :=
  ⟨fun _ _ _ _ h hv => mapFields_explicit_wins h hv, by decide⟩

/-- C6 witness: the precedence conjunct instantiated at the concrete
record of the example. -/
theorem C6_explicit_mapping_wins_witness :
    lookupVal (mapFields recFooBar mapNazovTitle) "title" = some (GoVal.str "Foo") :=
  C6_explicit_mapping_wins.1 recFooBar mapNazovTitle "title" (GoVal.str "Foo")
    (by decide) (by decide)

/-- C6 counterexample: with the mapping from NAZOV to title and a
record holding an empty NAZOV and PRODUCTNAME Bar, the code's mapper
copies the empty explicit value and the heuristic never fills the
title, while the mapper the claim describes skips the empty explicit
value and resolves the title to Bar. -/
theorem C6_explicit_mapping_counterexample :
    lookupVal (mapFields recEmptyBar mapNazovTitle) "title" = some (GoVal.str "") ∧
    lookupVal (claimMapFields recEmptyBar mapNazovTitle) "title" = some (GoVal.str "Bar") := by
  decide

/-- C7 (amended): resolving the path Electronics | Phones | Smartphones
from an empty table creates exactly three categories in a
parent-linked chain and returns the leaf identifier, and resolving the
same path again creates zero additional categories; the splitter,
however, recognizes only the space-pipe-space delimiter (see the
counterexample). -/
theorem C7_category_chain :
    findOrCreateCategory [] catPath3 = (some 2, catChain3) ∧
    findOrCreateCategory catChain3 catPath3 = (some 2, catChain3) := by decide

/-- C7 counterexample: the code splits only on space-pipe-space, so the
path A gt B is treated as a single segment and creates one category
named A gt B, while the delimiter priority list of the claim splits it
into the two segments A and B. -/
theorem C7_category_chain_counterexample :
    (findOrCreateCategory [] "A>B").2 =
      [{ cid := 0, parent := none, name := "A>B", slug := "ab" }] ∧
    specSplitSegs "A>B" = ["A", "B"] := by decide

/-- C8 (amended): on the synthetic three-item payload the struct-based
Heureka extraction yields exactly three records, each with its
PRODUCTNAME and EAN populated and exactly two name-value parameter
pairs collected in its Params list; the token-loop extractor
parseFullXML also yields three records, but flattens the PARAM blocks
(see the counterexample). -/
theorem C8_param_extraction :
    heurekaItems xmlPayload3 =
      [{ itemId := "", productName := "Phone A", ean := "111",
         params := [("Color", "Red"), ("Size", "XL")] },
       { itemId := "", productName := "Phone B", ean := "222",
         params := [("Color", "Blue"), ("Size", "M")] },
       { itemId := "", productName := "Phone C", ean := "333",
         params := [("Color", "Green"), ("Size", "S")] }] ∧
    (parseFullXML xmlPayload3 "SHOPITEM").length = 3 := by decide

/-- C8 counterexample: parseFullXML attaches no parameter list under
any reserved key — each record of the three-item payload carries only
flat PARAM_NAME and VAL fields in which the second PARAM block
overwrote the first, so only one of the two pairs survives. -/
theorem C8_param_extraction_counterexample :
    parseFullXML xmlPayload3 "SHOPITEM" =
      [[("PRODUCTNAME", GoVal.str "Phone A"), ("EAN", GoVal.str "111"),
        ("PARAM_NAME", GoVal.str "Size"), ("VAL", GoVal.str "XL")],
       [("PRODUCTNAME", GoVal.str "Phone B"), ("EAN", GoVal.str "222"),
        ("PARAM_NAME", GoVal.str "Size"), ("VAL", GoVal.str "M")],
       [("PRODUCTNAME", GoVal.str "Phone C"), ("EAN", GoVal.str "333"),
        ("PARAM_NAME", GoVal.str "Size"), ("VAL", GoVal.str "S")]] := by decide

/-- C9 (amended): both preview extractors return a sample of at most
five records, and the total-items counter they report always equals the
number of sampled records — for the XML and CSV previews it is capped
at five and is not the item count of the full payload (see the
counterexample). -/
theorem C9_preview_bound :
    (∀ (tokens : List XMLToken) (itemPath : String),
      (parseXMLPreview tokens itemPath).totalItems
          = (parseXMLPreview tokens itemPath).sample.length ∧
      (parseXMLPreview tokens itemPath).sample.length ≤ 5) ∧
    (∀ rows : List (List String),
      (parseCSVPreview rows).totalItems = (parseCSVPreview rows).sample.length ∧
      (parseCSVPreview rows).sample.length ≤ 5) :=
  ⟨fun tokens itemPath => parseXMLPreview_bound tokens itemPath,
   fun rows => parseCSVPreview_bound rows⟩

/-- C9 counterexample: on a six-item payload the XML preview reports a
total of five, not the six items of the full payload that the claim
requires. -/
theorem C9_preview_bound_counterexample :
    (parseXMLPreview xmlPayload6 "SHOPITEM").totalItems = 5 ∧
    (parseXMLPreview xmlPayload6 "SHOPITEM").sample.length = 5 ∧
    (parseFullXML xmlPayload6 "SHOPITEM").length = 6 := by decide

/-- C10: makeSlug is idempotent — applying it to its own output returns
the output unchanged, because every output consists only of lowercase
letters, digits and single hyphens with no leading or trailing hyphen,
and such strings are fixed points of every stage of the function. -/
theorem C10_makeSlug_idempotent (s : String) : makeSlug (makeSlug s) = makeSlug s := by
  have hout : (makeSlug s).data
      = trimDash (collapseDashes (mapRunes ((s.data.map toLowerChar).map stripMark))) := rfl
  apply makeSlug_fixed
  · intro c hc
    exact slugOut_allOk hc
  · rw [hout]
    exact trimDash_noDD (collapseDashes_noDD _)
  · intro c hc
    rw [hout] at hc
    unfold trimDash at hc
    have h2 := head_trimRightDash hc
    unfold trimLeadDash at h2
    exact head_dropWhile_dash h2
  · rw [hout]
    unfold trimDash
    exact getLast_trimRightDash _
